import Mathlib

/-!
Shallow embedding of the MX25UW25645G Octo-SPI flash driver
(src/mx25uw25645g.rs) as a trace semantics.

The driver issues bus transactions through an XSPI transport.  We model a
transaction descriptor exactly as the source builds Rust TransferConfig
values, and each driver operation as a function producing the list of bus
events it issues.  Reads of the status register obtain their result from an
explicit environment: a list of status bytes, consumed one per status read.
An operation returns the events it issued together with `some remaining`
statuses on normal completion, or `none` when it aborts (a panicking assert,
or a busy-poll loop that never observes the write-in-progress bit clear
within the supplied environment).
-/

namespace Mx25

/-- Bus width of one transaction phase (embassy XspiWidth). -/
inductive XspiWidth
  | NONE
  | SING
  | DUAL
  | QUAD
  | OCTO
deriving DecidableEq, Repr

/-- Size of the instruction or address phase (embassy AddressSize). -/
inductive AddressSize
  | _8bit
  | _16bit
  | _24bit
  | _32bit
deriving DecidableEq, Repr

/-- Transfer descriptor, mirroring embassy TransferConfig.  Dummy cycles are
kept as a plain count.  Field defaults mirror the Rust Default instance used
by the source via `..Default::default()`. -/
structure TransferConfig where
  iwidth : XspiWidth := XspiWidth.NONE
  isize : AddressSize := AddressSize._8bit
  idtr : Bool := false
  adwidth : XspiWidth := XspiWidth.NONE
  adsize : AddressSize := AddressSize._8bit
  addtr : Bool := false
  dwidth : XspiWidth := XspiWidth.NONE
  ddtr : Bool := false
  instruction : Option Nat := none
  address : Option Nat := none
  dummy : Nat := 0
deriving DecidableEq, Repr

/-- The flash page size in bytes (MEMORY_PAGE_SIZE in the source). -/
def MEMORY_PAGE_SIZE : Nat := 256

/-- SPI (legacy single-wire) mode commands of the chip. -/
inductive SpiCommand
  | WriteEnable
  | ResetEnable
  | ResetMemory
  | ReadIdentification
  | ReadStatusRegister
  | ReadConfigurationRegister2
  | WriteConfigurationRegister2
deriving DecidableEq, Repr

/-- Opcode of a legacy SPI command (the repr(u8) discriminants). -/
def SpiCommand.code : SpiCommand → Nat
  | SpiCommand.WriteEnable => 0x06
  | SpiCommand.ResetEnable => 0x66
  | SpiCommand.ResetMemory => 0x99
  | SpiCommand.ReadIdentification => 0x9F
  | SpiCommand.ReadStatusRegister => 0x05
  | SpiCommand.ReadConfigurationRegister2 => 0x71
  | SpiCommand.WriteConfigurationRegister2 => 0x72

/-- Octo-SPI mode commands of the chip. -/
inductive OpiCommand
  | OctaRead
  | OctaDTRRead
  | PageProgram4B
  | SectorErase4B
  | BlockErase4B
  | ChipErase
  | ReadBuffer
  | WriteBufferInitial
  | WriteBufferContinue
  | WriteBufferConfirm
  | WriteEnable
  | WriteDisable
  | WriteProtectSelection
  | ProgramEraseSuspend
  | ProgramEraseResume
  | DeepPowerDown
  | ReleaseFromDeepPowerDown
  | NoOperation
  | ResetEnable
  | ResetMemory
  | GangBlockLock
  | GangBlockUnlock
  | ReadIdentification
  | ReadSFDP
  | ReadStatusRegister
  | ReadConfigurationRegister
  | WriteStatusConfigurationRegister
  | ReadConfigurationRegister2
  | WriteConfigurationRegister2
  | ReadSecurityRegister
  | WriteSecurityRegister
  | SetBurstLength
  | ReadFastBootRegister
  | WriteFastBootRegister
  | EraseFastBootRegister
  | EnterSecuredOTP
  | ExitSecuredOTP
  | WriteLockRegister
  | ReadLockRegister
  | WriteSPB
  | EraseSPB
  | ReadSPB
  | WriteDPB
  | ReadDPB
  | ReadPassword
  | WritePassword
  | PasswordUnlock
deriving DecidableEq, Repr

/-- Opcode of an Octo-SPI command (the repr(u16) discriminants). -/
def OpiCommand.code : OpiCommand → Nat
  | OpiCommand.OctaRead => 0xEC13
  | OpiCommand.OctaDTRRead => 0xEE11
  | OpiCommand.PageProgram4B => 0x12ED
  | OpiCommand.SectorErase4B => 0x21DE
  | OpiCommand.BlockErase4B => 0xDC23
  | OpiCommand.ChipErase => 0x609F
  | OpiCommand.ReadBuffer => 0x25DA
  | OpiCommand.WriteBufferInitial => 0x22DD
  | OpiCommand.WriteBufferContinue => 0x24DB
  | OpiCommand.WriteBufferConfirm => 0x31CE
  | OpiCommand.WriteEnable => 0x06F9
  | OpiCommand.WriteDisable => 0x04FB
  | OpiCommand.WriteProtectSelection => 0x6897
  | OpiCommand.ProgramEraseSuspend => 0xB04F
  | OpiCommand.ProgramEraseResume => 0x30CF
  | OpiCommand.DeepPowerDown => 0xB946
  | OpiCommand.ReleaseFromDeepPowerDown => 0xAB54
  | OpiCommand.NoOperation => 0x00FF
  | OpiCommand.ResetEnable => 0x6699
  | OpiCommand.ResetMemory => 0x9966
  | OpiCommand.GangBlockLock => 0x7E81
  | OpiCommand.GangBlockUnlock => 0x9867
  | OpiCommand.ReadIdentification => 0x9F60
  | OpiCommand.ReadSFDP => 0x5AA5
  | OpiCommand.ReadStatusRegister => 0x05FA
  | OpiCommand.ReadConfigurationRegister => 0x15EA
  | OpiCommand.WriteStatusConfigurationRegister => 0x01FE
  | OpiCommand.ReadConfigurationRegister2 => 0x718E
  | OpiCommand.WriteConfigurationRegister2 => 0x728D
  | OpiCommand.ReadSecurityRegister => 0x2BD4
  | OpiCommand.WriteSecurityRegister => 0x2FD0
  | OpiCommand.SetBurstLength => 0xC03F
  | OpiCommand.ReadFastBootRegister => 0x16E9
  | OpiCommand.WriteFastBootRegister => 0x17E8
  | OpiCommand.EraseFastBootRegister => 0x18E7
  | OpiCommand.EnterSecuredOTP => 0xB14E
  | OpiCommand.ExitSecuredOTP => 0xC13E
  | OpiCommand.WriteLockRegister => 0x2CD3
  | OpiCommand.ReadLockRegister => 0x2DD2
  | OpiCommand.WriteSPB => 0xE31C
  | OpiCommand.EraseSPB => 0xE41B
  | OpiCommand.ReadSPB => 0xE21D
  | OpiCommand.WriteDPB => 0xE11E
  | OpiCommand.ReadDPB => 0xE01F
  | OpiCommand.ReadPassword => 0x27D8
  | OpiCommand.WritePassword => 0x28D7
  | OpiCommand.PasswordUnlock => 0x29D6

/-- One observable bus interaction: an instruction-only command, a read of
a given byte count, or a write carrying the given data bytes. -/
inductive BusEvent
  | command (t : TransferConfig)
  | readData (t : TransferConfig) (len : Nat)
  | writeData (t : TransferConfig) (data : List Nat)
deriving DecidableEq, Repr

/-- Data-phase byte count of an event, when it has a data phase. -/
def eventDataLen : BusEvent → Option Nat
  | BusEvent.command _ => none
  | BusEvent.readData _ len => some len
  | BusEvent.writeData _ data => some data.length

/-- Result of a driver operation: the bus events it issued, and the
remaining status environment on completion (`none` when it aborted). -/
abbrev OpResult := List BusEvent × Option (List Nat)

/-- The transaction built by exec_command_spi. -/
def exec_command_spi_trans (cmd : Nat) : TransferConfig :=
  { iwidth := XspiWidth.SING
    adwidth := XspiWidth.NONE
    dwidth := XspiWidth.NONE
    instruction := some cmd
    address := none
    dummy := 0 }

/-- The transaction built by read_register_spi. -/
def read_register_spi_trans (cmd : Nat) : TransferConfig :=
  { iwidth := XspiWidth.SING
    isize := AddressSize._8bit
    adwidth := XspiWidth.NONE
    dwidth := XspiWidth.SING
    instruction := some cmd
    address := none
    dummy := 0 }

/-- The transaction built by read_cr2_spi. -/
def read_cr2_spi_trans (address : Nat) : TransferConfig :=
  { iwidth := XspiWidth.SING
    isize := AddressSize._8bit
    instruction := some SpiCommand.ReadConfigurationRegister2.code
    adsize := AddressSize._32bit
    adwidth := XspiWidth.SING
    dwidth := XspiWidth.SING
    address := some address
    dummy := 0 }

/-- The transaction built by write_cr2_spi. -/
def write_cr2_spi_trans (address : Nat) : TransferConfig :=
  { iwidth := XspiWidth.SING
    isize := AddressSize._8bit
    instruction := some SpiCommand.WriteConfigurationRegister2.code
    adsize := AddressSize._32bit
    adwidth := XspiWidth.SING
    dwidth := XspiWidth.SING
    address := some address
    dummy := 0 }

/-- The transaction built by exec_command (OPI, 2-byte instruction, DTR). -/
def exec_command_trans (cmd : Nat) : TransferConfig :=
  { iwidth := XspiWidth.OCTO
    isize := AddressSize._16bit
    idtr := true
    adwidth := XspiWidth.NONE
    dwidth := XspiWidth.NONE
    instruction := some cmd
    address := none
    dummy := 0 }

/-- The transaction built by read_id.  Note ddtr is false: the data phase is
single-rate. -/
def read_id_trans : TransferConfig :=
  { iwidth := XspiWidth.OCTO
    isize := AddressSize._16bit
    idtr := true
    adwidth := XspiWidth.OCTO
    adsize := AddressSize._32bit
    addtr := true
    dwidth := XspiWidth.OCTO
    ddtr := false
    instruction := some OpiCommand.ReadIdentification.code
    address := some 0x00000000
    dummy := 4 }

/-- The transaction built by read_memory. -/
def read_memory_trans (addr : Nat) : TransferConfig :=
  { iwidth := XspiWidth.OCTO
    isize := AddressSize._16bit
    idtr := true
    adwidth := XspiWidth.OCTO
    adsize := AddressSize._32bit
    addtr := true
    dwidth := XspiWidth.OCTO
    ddtr := true
    instruction := some OpiCommand.OctaDTRRead.code
    address := some addr
    dummy := 20 }

/-- The transaction built by perform_erase (no data phase). -/
def perform_erase_trans (addr : Nat) (cmd : Nat) : TransferConfig :=
  { iwidth := XspiWidth.OCTO
    isize := AddressSize._16bit
    idtr := true
    adwidth := XspiWidth.OCTO
    adsize := AddressSize._32bit
    addtr := true
    dwidth := XspiWidth.NONE
    ddtr := true
    instruction := some cmd
    address := some addr
    dummy := 0 }

/-- The transaction built by write_page. -/
def write_page_trans (addr : Nat) : TransferConfig :=
  { iwidth := XspiWidth.OCTO
    isize := AddressSize._16bit
    idtr := true
    adwidth := XspiWidth.OCTO
    adsize := AddressSize._32bit
    addtr := true
    dwidth := XspiWidth.OCTO
    ddtr := true
    instruction := some OpiCommand.PageProgram4B.code
    address := some addr
    dummy := 0 }

/-- The transaction built by read_register (OPI register read). -/
def read_register_trans (cmd : Nat) (dummy_addr : Nat) (dummy_cycles : Nat) : TransferConfig :=
  { iwidth := XspiWidth.OCTO
    isize := AddressSize._16bit
    idtr := true
    adwidth := XspiWidth.OCTO
    adsize := AddressSize._32bit
    addtr := true
    dwidth := XspiWidth.OCTO
    ddtr := true
    instruction := some cmd
    address := some dummy_addr
    dummy := dummy_cycles }

/-- The transaction built by write_sr_cr. -/
def write_sr_cr_trans : TransferConfig :=
  { iwidth := XspiWidth.OCTO
    isize := AddressSize._16bit
    idtr := true
    adwidth := XspiWidth.OCTO
    adsize := AddressSize._32bit
    addtr := true
    dwidth := XspiWidth.OCTO
    ddtr := true
    instruction := some OpiCommand.WriteStatusConfigurationRegister.code
    address := some 0x00000000
    dummy := 0 }

/-- The transaction built by read_cr2 (OPI). -/
def read_cr2_trans (address : Nat) : TransferConfig :=
  { iwidth := XspiWidth.OCTO
    isize := AddressSize._16bit
    idtr := true
    adwidth := XspiWidth.OCTO
    adsize := AddressSize._32bit
    addtr := true
    dwidth := XspiWidth.OCTO
    ddtr := true
    instruction := some OpiCommand.ReadConfigurationRegister2.code
    address := some address
    dummy := 4 }

/-- The transaction built by write_cr2 (OPI). -/
def write_cr2_trans (address : Nat) : TransferConfig :=
  { iwidth := XspiWidth.OCTO
    isize := AddressSize._16bit
    idtr := true
    adwidth := XspiWidth.OCTO
    adsize := AddressSize._32bit
    addtr := true
    dwidth := XspiWidth.OCTO
    ddtr := true
    instruction := some OpiCommand.WriteConfigurationRegister2.code
    address := some address
    dummy := 0 }

/-- The memory-mapped read template built by enable_mm. -/
def enable_mm_read_config : TransferConfig :=
  { iwidth := XspiWidth.OCTO
    isize := AddressSize._16bit
    idtr := true
    adwidth := XspiWidth.OCTO
    adsize := AddressSize._32bit
    addtr := true
    dwidth := XspiWidth.OCTO
    ddtr := true
    instruction := some OpiCommand.OctaDTRRead.code
    dummy := 20 }

/-- The memory-mapped write template built by enable_mm. -/
def enable_mm_write_config : TransferConfig :=
  { iwidth := XspiWidth.OCTO
    isize := AddressSize._16bit
    idtr := true
    adwidth := XspiWidth.OCTO
    adsize := AddressSize._32bit
    addtr := true
    dwidth := XspiWidth.OCTO
    ddtr := true
    instruction := some OpiCommand.PageProgram4B.code
    dummy := 0 }

/-- Event issued by exec_command_spi. -/
def exec_command_spi (cmd : Nat) : BusEvent :=
  BusEvent.command (exec_command_spi_trans cmd)

/-- Event issued by read_register_spi (a one-byte read). -/
def read_register_spi (cmd : Nat) : BusEvent :=
  BusEvent.readData (read_register_spi_trans cmd) 1

/-- Event issued by read_cr2_spi (a one-byte read). -/
def read_cr2_spi (address : Nat) : BusEvent :=
  BusEvent.readData (read_cr2_spi_trans address) 1

/-- Event issued by exec_command. -/
def exec_command (cmd : Nat) : BusEvent :=
  BusEvent.command (exec_command_trans cmd)

/-- Event issued by enable_write. -/
def enable_write : BusEvent :=
  exec_command OpiCommand.WriteEnable.code

/-- Event issued by read_register (a one-byte read of a register). -/
def read_register (cmd : Nat) (dummy_addr : Nat) (dummy_cycles : Nat) : BusEvent :=
  BusEvent.readData (read_register_trans cmd dummy_addr dummy_cycles) 1

/-- Event issued by read_sr. -/
def read_sr : BusEvent :=
  read_register OpiCommand.ReadStatusRegister.code 0x00000000 4

/-- Event issued by read_cr. -/
def read_cr : BusEvent :=
  read_register OpiCommand.ReadConfigurationRegister.code 0x00000001 4

/-- Event issued by read_cr2 (a two-byte read; DTR requires an even count). -/
def read_cr2 (address : Nat) : BusEvent :=
  BusEvent.readData (read_cr2_trans address) 2

/-- Event issued by read_id (a four-byte read, returning [u8; 4]). -/
def read_id : BusEvent :=
  BusEvent.readData read_id_trans 4

/-- Event issued by read_memory into a buffer of the given length. -/
def read_memory (addr : Nat) (len : Nat) : BusEvent :=
  BusEvent.readData (read_memory_trans addr) len

/-- Busy-poll loop shared by wait_write_finish and wait_write_finish_spi:
keep issuing the probing status read while bit 0 of the returned status is
set.  The environment supplies successive status bytes; exhausting it means
the loop never observes the bit clear, hence never terminates. -/
def pollStatus (probe : BusEvent) : List Nat → OpResult
  | [] => ([], none)
  | s :: rest =>
    if s &&& 0x01 ≠ 0 then
      (probe :: (pollStatus probe rest).1, (pollStatus probe rest).2)
    else
      ([probe], some rest)

/-- wait_write_finish: poll the OPI status register until bit 0 clears. -/
def wait_write_finish (st : List Nat) : OpResult :=
  pollStatus read_sr st

/-- wait_write_finish_spi: poll the legacy status register until bit 0
clears. -/
def wait_write_finish_spi (st : List Nat) : OpResult :=
  pollStatus (read_register_spi SpiCommand.ReadStatusRegister.code) st

/-- reset_memory_spi: Reset-Enable, Reset-Memory, then busy-poll. -/
def reset_memory_spi (st : List Nat) : OpResult :=
  (exec_command_spi SpiCommand.ResetEnable.code ::
    exec_command_spi SpiCommand.ResetMemory.code ::
    (wait_write_finish_spi st).1,
   (wait_write_finish_spi st).2)

/-- write_cr2_spi: one-byte legacy write of Configuration Register 2,
followed by busy-polling. -/
def write_cr2_spi (address : Nat) (value : Nat) (st : List Nat) : OpResult :=
  (BusEvent.writeData (write_cr2_spi_trans address) [value] ::
    (wait_write_finish_spi st).1,
   (wait_write_finish_spi st).2)

/-- The constructor `new`: reset in SPI mode, read CR2 at 0, Write-Enable,
write CR2 at 0 with bit 1 set (this switches the chip to Octal DTR), then
re-read CR2 at 0 with the Octal DTR transaction shape.  `cr2_0` is the value
the legacy CR2 read returns; `cr2_0_dtr` is the value the Octal re-read
returns (it is only logged, so the trace does not depend on it). -/
def new (st : List Nat) (cr2_0 : Nat) (_cr2_0_dtr : Nat) : OpResult :=
  let r1 := reset_memory_spi st
  match r1.2 with
  | none => (r1.1, none)
  | some st1 =>
    let r2 := write_cr2_spi 0 (cr2_0 ||| 0x02) st1
    match r2.2 with
    | none =>
      (r1.1 ++ read_cr2_spi 0 :: exec_command_spi SpiCommand.WriteEnable.code :: r2.1, none)
    | some st2 =>
      (r1.1 ++ read_cr2_spi 0 :: exec_command_spi SpiCommand.WriteEnable.code :: r2.1
        ++ [read_cr2 0], some st2)

/-- perform_erase: Write-Enable, one erase transaction carrying the
address, then busy-poll until write-in-progress clears. -/
def perform_erase (addr : Nat) (cmd : Nat) (st : List Nat) : OpResult :=
  (enable_write :: BusEvent.command (perform_erase_trans addr cmd) ::
    (wait_write_finish st).1,
   (wait_write_finish st).2)

/-- erase_sector: 4 KiB sector erase. -/
def erase_sector (addr : Nat) (st : List Nat) : OpResult :=
  perform_erase addr OpiCommand.SectorErase4B.code st

/-- erase_block_64k: 64 KiB block erase. -/
def erase_block_64k (addr : Nat) (st : List Nat) : OpResult :=
  perform_erase addr OpiCommand.BlockErase4B.code st

/-- erase_chip: Write-Enable, Chip-Erase command (no address phase), then
busy-poll until write-in-progress clears. -/
def erase_chip (st : List Nat) : OpResult :=
  (enable_write :: exec_command OpiCommand.ChipErase.code ::
    (wait_write_finish st).1,
   (wait_write_finish st).2)

/-- write_page: assert that the write does not cross a page boundary (the
sum is computed in u32 as in the source), then Write-Enable, one
Page-Program transaction carrying the buffer, then busy-poll.  A failing
assert aborts before any bus activity. -/
def write_page (addr : Nat) (buffer : List Nat) (len : Nat) (st : List Nat) : OpResult :=
  if (len + (addr &&& 0x000000ff)) % 2 ^ 32 ≤ MEMORY_PAGE_SIZE then
    (enable_write :: BusEvent.writeData (write_page_trans addr) buffer ::
      (wait_write_finish st).1,
     (wait_write_finish st).2)
  else
    ([], none)

/-- Identity used throughout: masking with 0xff is reduction mod 256. -/
theorem land255_eq_mod (n : Nat) : n &&& 255 = n % 256 := by
  have h := Nat.and_pow_two_sub_one_eq_mod n 8
  simpa using h

/-- The write_memory loop.  `place` is the running u32 address (advanced
mod 2^32 as the source increments a u32), `remaining` the yet-unwritten
tail of the caller buffer. -/
def write_memory_loop (place : Nat) (remaining : List Nat) (st : List Nat) : OpResult :=
  if _h : remaining.length = 0 then
    ([], some st)
  else
    let max_chunk_size := MEMORY_PAGE_SIZE - (place &&& 0x000000ff)
    let chunk_size := min max_chunk_size remaining.length
    let chunk := remaining.take chunk_size
    let r := write_page place chunk chunk_size st
    match r.2 with
    | none => (r.1, none)
    | some st1 =>
      let r2 := write_memory_loop ((place + chunk_size) % 2 ^ 32) (remaining.drop chunk_size) st1
      (r.1 ++ r2.1, r2.2)
termination_by remaining.length
decreasing_by
  simp only [List.length_drop, land255_eq_mod]
  have hm : place % 256 < 256 := Nat.mod_lt _ (by norm_num)
  simp only [MEMORY_PAGE_SIZE]
  omega

/-- write_memory: split the buffer at page boundaries and program each
chunk in turn. -/
def write_memory (addr : Nat) (buffer : List Nat) (st : List Nat) : OpResult :=
  write_memory_loop addr buffer st

/-- write_sr_cr: Write-Enable, a two-byte write of status and
configuration, then busy-poll. -/
def write_sr_cr (sr : Nat) (cr : Nat) (st : List Nat) : OpResult :=
  (enable_write :: BusEvent.writeData write_sr_cr_trans [sr, cr] ::
    (wait_write_finish st).1,
   (wait_write_finish st).2)

/-- Little-endian byte image of a 16-bit word as written on the bus. -/
def u16leBytes (w : Nat) : List Nat :=
  [w % 256, w / 256 % 256]

/-- write_cr2: the one-byte value is widened to a u16 word and transmitted
as two bytes, after Write-Enable and before busy-polling. -/
def write_cr2 (address : Nat) (value : Nat) (st : List Nat) : OpResult :=
  let word := value % 2 ^ 16
  (enable_write :: BusEvent.writeData (write_cr2_trans address) (u16leBytes word) ::
    (wait_write_finish st).1,
   (wait_write_finish st).2)

/-- The Page-Program chunk an event carries, if it is one: start address
and carried byte count. -/
def programChunkOf : BusEvent → Option (Nat × Nat)
  | BusEvent.writeData t data =>
    match t.instruction, t.address with
    | some i, some a =>
      if i = OpiCommand.PageProgram4B.code then some (a, data.length) else none
    | _, _ => none
  | _ => none

/-- All Page-Program chunks of a trace, in issue order. -/
def programChunks (evs : List BusEvent) : List (Nat × Nat) :=
  evs.filterMap programChunkOf

/-- Whether an event is one of the three erase transactions. -/
def isEraseEvent (e : BusEvent) : Bool :=
  match e with
  | BusEvent.command t =>
    t.instruction = some OpiCommand.SectorErase4B.code ||
    t.instruction = some OpiCommand.BlockErase4B.code ||
    t.instruction = some OpiCommand.ChipErase.code
  | _ => false

/-- Chunk list contiguity: each chunk starts at the given address and the
next chunk starts where it ends. -/
def contiguousFrom : Nat → List (Nat × Nat) → Prop
  | _, [] => True
  | a, c :: rest => c.1 = a ∧ contiguousFrom (c.1 + c.2) rest

/-- A data-transfer byte count acceptable in DTR mode: even and at least
one full 16-bit beat. -/
def evenAtLeastTwo (n : Nat) : Prop :=
  2 ≤ n ∧ n % 2 = 0

/-- Every event a status poll issues is the probing status read. -/
theorem pollStatus_mem (probe : BusEvent) :
    ∀ st : List Nat, ∀ e ∈ (pollStatus probe st).1, e = probe := by
  intro st
  induction st with
  | nil => simp [pollStatus]
  | cons s rest ih =>
    by_cases h : s &&& 1 ≠ 0
    · simp only [pollStatus, if_pos h]
      intro e he
      rcases List.mem_cons.mp he with h1 | h1
      · exact h1
      · exact ih e h1
    · simp only [pollStatus, if_neg h]
      intro e he
      simpa using he

/-- A status poll completes exactly when the environment is a run of
busy statuses (bit 0 set) followed by one clear status; the trace is then
one probing read per consumed status. -/
theorem pollStatus_some_iff (probe : BusEvent) (st : List Nat) (evs : List BusEvent)
    (rest : List Nat) :
    pollStatus probe st = (evs, some rest) ↔
      ∃ busy s, st = busy ++ s :: rest ∧ (∀ b ∈ busy, b &&& 1 ≠ 0) ∧ s &&& 1 = 0 ∧
        evs = List.replicate (busy.length + 1) probe := by
  constructor
  · intro h
    induction st generalizing evs with
    | nil => simp [pollStatus] at h
    | cons s rest2 ih =>
      by_cases hb : s &&& 1 ≠ 0
      · simp only [pollStatus, if_pos hb] at h
        have h1 := congrArg Prod.fst h
        have h2 := congrArg Prod.snd h
        simp only at h1 h2
        have h3 : pollStatus probe rest2 = ((pollStatus probe rest2).1, some rest) :=
          Prod.ext rfl h2
        obtain ⟨busy, s2, hsplit, hbusy, hclear, hevs⟩ := ih _ h3
        refine ⟨s :: busy, s2, by simp [hsplit], ?_, hclear, ?_⟩
        · intro b hb2
          rcases List.mem_cons.mp hb2 with h4 | h4
          · exact h4 ▸ hb
          · exact hbusy b h4
        · rw [← h1, hevs]
          simp [List.replicate_succ]
      · simp only [pollStatus, if_neg hb] at h
        have h1 := congrArg Prod.fst h
        have h2 := congrArg Prod.snd h
        simp only at h1 h2
        have h4 : rest2 = rest := by injection h2
        subst h4
        exact ⟨[], s, by simp, by simp, by omega, by simp [← h1]⟩
  · rintro ⟨busy, s, hsplit, hbusy, hclear, hevs⟩
    subst hsplit hevs
    induction busy with
    | nil =>
      simp only [List.nil_append, pollStatus]
      rw [if_neg (by omega)]
      simp
    | cons b busy2 ih =>
      have hb : b &&& 1 ≠ 0 := hbusy b (by simp)
      simp only [List.cons_append, pollStatus, if_pos hb, List.append_eq]
      have ih2 := ih (fun x hx => hbusy x (by simp [hx]))
      simp only [List.append_eq] at ih2
      rw [ih2]
      simp [List.replicate_succ]

/-- A status poll whose environment is all-busy never completes: it issues
one probing read per supplied status and is still waiting. -/
theorem pollStatus_all_busy (probe : BusEvent) (st : List Nat)
    (h : ∀ s ∈ st, s &&& 1 ≠ 0) :
    pollStatus probe st = (List.replicate st.length probe, none) := by
  induction st with
  | nil => simp [pollStatus]
  | cons s rest ih =>
    have hb : s &&& 1 ≠ 0 := h s (by simp)
    simp only [pollStatus, if_pos hb]
    rw [ih (fun x hx => h x (by simp [hx]))]
    simp [List.replicate_succ]

/-- Chunk extraction distributes over trace concatenation. -/
theorem programChunks_append (a b : List BusEvent) :
    programChunks (a ++ b) = programChunks a ++ programChunks b := by
  simp [programChunks, List.filterMap_append]

/-- A status-poll trace contains no Page-Program chunk. -/
theorem programChunks_poll (probe : BusEvent) (hp : programChunkOf probe = none)
    (st : List Nat) :
    programChunks (pollStatus probe st).1 = [] := by
  rw [programChunks, List.filterMap_eq_nil_iff]
  intro e he
  rw [pollStatus_mem probe st e he]
  exact hp

/-- The in-page write_page call: when the length fits the page remainder,
the assert passes and the trace is Write-Enable, Page-Program, poll. -/
theorem write_page_in_bounds (addr : Nat) (buffer : List Nat) (len : Nat) (st : List Nat)
    (h : len + addr % 256 ≤ 256) :
    write_page addr buffer len st =
      (enable_write :: BusEvent.writeData (write_page_trans addr) buffer ::
        (wait_write_finish st).1,
       (wait_write_finish st).2) := by
  unfold write_page
  rw [show (0x000000ff : Nat) = 255 from rfl, land255_eq_mod]
  rw [if_pos]
  have hlt : len + addr % 256 < 2 ^ 32 := lt_of_le_of_lt h (by norm_num)
  rw [Nat.mod_eq_of_lt hlt]
  simpa [MEMORY_PAGE_SIZE] using h

/-- Chunk extraction on one page-program iteration trace. -/
theorem programChunks_page_trace (addr : Nat) (buffer : List Nat) (st : List Nat) :
    programChunks (enable_write :: BusEvent.writeData (write_page_trans addr) buffer ::
      (wait_write_finish st).1) = [(addr, buffer.length)] := by
  have h1 : programChunkOf enable_write = none := rfl
  have h2 : programChunkOf (BusEvent.writeData (write_page_trans addr) buffer)
      = some (addr, buffer.length) := rfl
  have h3 := programChunks_poll read_sr rfl st
  simp only [programChunks, List.filterMap_cons, h1, h2]
  simpa [programChunks, wait_write_finish] using h3

/-- Every chunk the write_memory loop programs is nonempty, at most a page,
and stays inside the page of its start address. -/
theorem write_memory_loop_chunk_bounds :
    ∀ (n : Nat) (place : Nat) (remaining : List Nat) (st : List Nat),
      remaining.length = n →
      ∀ c ∈ programChunks (write_memory_loop place remaining st).1,
        1 ≤ c.2 ∧ c.2 ≤ 256 ∧ c.1 % 256 + c.2 ≤ 256 := by
  intro n
  induction n using Nat.strong_induction_on with
  | _ n ih =>
    intro place remaining st hn
    by_cases h : remaining.length = 0
    · rw [write_memory_loop, dif_pos h]
      simp [programChunks]
    · rw [write_memory_loop, dif_neg h]
      simp only [land255_eq_mod, MEMORY_PAGE_SIZE]
      set cs := min (256 - place % 256) remaining.length with hcs
      have hle : cs + place % 256 ≤ 256 := by omega
      rw [write_page_in_bounds place _ cs st hle]
      dsimp only
      cases hwf : (wait_write_finish st).2 with
      | none =>
        dsimp only
        rw [programChunks_page_trace]
        intro c hc
        rw [List.mem_singleton] at hc
        subst hc
        simp only [List.length_take]
        omega
      | some st1 =>
        dsimp only
        rw [programChunks_append, programChunks_page_trace]
        intro c hc
        rcases List.mem_append.mp hc with h4 | h4
        · rw [List.mem_singleton] at h4
          subst h4
          simp only [List.length_take]
          omega
        · have hlen : (remaining.drop cs).length = n - cs := by
            simp [List.length_drop, hn]
          exact ih (n - cs) (by omega) _ _ st1 hlen c h4

/-- On a completed run, the write_memory loop programs a contiguous chunk
sequence starting at the initial address whose lengths sum to the buffer
length. -/
theorem write_memory_loop_chunks_spec :
    ∀ (n : Nat) (place : Nat) (remaining : List Nat) (st : List Nat)
      (evs : List BusEvent) (rest : List Nat),
      remaining.length = n →
      place + remaining.length ≤ 2 ^ 32 →
      write_memory_loop place remaining st = (evs, some rest) →
      contiguousFrom place (programChunks evs) ∧
      ((programChunks evs).map (fun c => c.2)).sum = remaining.length := by
  intro n
  induction n using Nat.strong_induction_on with
  | _ n ih =>
    intro place remaining st evs rest hn hb hrun
    by_cases h : remaining.length = 0
    · rw [write_memory_loop, dif_pos h] at hrun
      have hevs : evs = [] := by
        have h1 := congrArg Prod.fst hrun
        simpa using h1.symm
      subst hevs
      simp [programChunks, contiguousFrom, h]
    · rw [write_memory_loop, dif_neg h] at hrun
      simp only [land255_eq_mod, MEMORY_PAGE_SIZE] at hrun
      set cs := min (256 - place % 256) remaining.length with hcs
      have hle : cs + place % 256 ≤ 256 := by omega
      rw [write_page_in_bounds place _ cs st hle] at hrun
      dsimp only at hrun
      cases hwf : (wait_write_finish st).2 with
      | none =>
        rw [hwf] at hrun
        dsimp only at hrun
        have h2 := congrArg Prod.snd hrun
        simp at h2
      | some st1 =>
        rw [hwf] at hrun
        dsimp only at hrun
        have h1 := congrArg Prod.fst hrun
        have h2 := congrArg Prod.snd hrun
        dsimp only at h1 h2
        have hrec : write_memory_loop ((place + cs) % 2 ^ 32) (remaining.drop cs) st1 =
            ((write_memory_loop ((place + cs) % 2 ^ 32) (remaining.drop cs) st1).1, some rest) :=
          Prod.ext rfl h2
        rw [← h1, programChunks_append, programChunks_page_trace]
        have htk : (remaining.take cs).length = cs := by
          simp only [List.length_take]
          omega
        have hlen : (remaining.drop cs).length = n - cs := by
          simp [List.length_drop, hn]
        by_cases hd : (remaining.drop cs).length = 0
        · have hempty : write_memory_loop ((place + cs) % 2 ^ 32) (remaining.drop cs) st1 =
              ([], some st1) := by
            rw [write_memory_loop, dif_pos hd]
          rw [hempty]
          simp only [programChunks, List.filterMap_nil, List.append_nil, List.singleton_append]
          constructor
          · exact ⟨rfl, trivial⟩
          · simp only [List.map_cons, List.map_nil, List.sum_cons, List.sum_nil, htk]
            omega
        · have hcslt : cs < n := by omega
          have hmod : (place + cs) % 2 ^ 32 = place + cs := by
            apply Nat.mod_eq_of_lt
            omega
          obtain ⟨hcont, hsum⟩ := ih (n - cs) (by omega) _ _ st1 _ rest hlen
            (by rw [hmod]; omega) hrec
          rw [hmod] at hcont hsum ⊢
          constructor
          · exact ⟨rfl, by simpa [htk] using hcont⟩
          · simp only [List.singleton_append, List.map_cons, List.sum_cons, htk, hsum]
            omega

/-- Every chunk of a contiguous sequence starts at or after the base. -/
theorem contiguousFrom_le :
    ∀ (l : List (Nat × Nat)) (a : Nat), contiguousFrom a l → ∀ c ∈ l, a ≤ c.1 := by
  intro l
  induction l with
  | nil =>
    intro a _ c hc
    simp at hc
  | cons x xs ih =>
    intro a h c hc
    obtain ⟨hx, hrest⟩ := h
    rcases List.mem_cons.mp hc with h1 | h1
    · subst h1
      omega
    · have h2 := ih (x.1 + x.2) hrest c h1
      omega

/-- A contiguous sequence of nonempty chunks has strictly increasing start
addresses. -/
theorem contiguousFrom_pairwise :
    ∀ (l : List (Nat × Nat)) (a : Nat), contiguousFrom a l → (∀ c ∈ l, 1 ≤ c.2) →
      l.Pairwise (fun c d => c.1 < d.1) := by
  intro l
  induction l with
  | nil =>
    intro a _ _
    simp
  | cons x xs ih =>
    intro a h hlen
    obtain ⟨hx, hrest⟩ := h
    refine List.Pairwise.cons ?_ (ih (x.1 + x.2) hrest (fun c hc => hlen c (by simp [hc])))
    intro y hy
    have h1 := contiguousFrom_le xs (x.1 + x.2) hrest y hy
    have h2 := hlen x (by simp)
    omega

/-- Common shape of a completed write-class operation: the two leading
events, then one status read per consumed status byte, the last status
clear and all earlier ones busy. -/
theorem bracket_poll_helper (e1 e2 : BusEvent) (st : List Nat) (evs : List BusEvent)
    (rest : List Nat)
    (h : (e1 :: e2 :: (wait_write_finish st).1, (wait_write_finish st).2) = (evs, some rest)) :
    ∃ busy s, st = busy ++ s :: rest ∧ (∀ b ∈ busy, b &&& 1 ≠ 0) ∧ s &&& 1 = 0 ∧
      evs = e1 :: e2 :: List.replicate (busy.length + 1) read_sr := by
  have h1 := congrArg Prod.fst h
  have h2 := congrArg Prod.snd h
  dsimp only at h1 h2
  have h3 : wait_write_finish st = ((wait_write_finish st).1, some rest) := Prod.ext rfl h2
  obtain ⟨busy, s, h4, h5, h6, h7⟩ := (pollStatus_some_iff read_sr st _ rest).mp h3
  exact ⟨busy, s, h4, h5, h6, by rw [← h1, h7]⟩

/-- Claim C1: write_memory splits its buffer into Page-Program chunks, each
of length at most 256 and not crossing a multiple-of-256 boundary, with
lengths summing to the buffer length, issued contiguously from the start
address in strictly increasing address order. -/
theorem write_memory_page_split (addr : Nat) (buffer : List Nat) (st : List Nat)
    (evs : List BusEvent) (rest : List Nat)
    (haddr : addr + buffer.length ≤ 2 ^ 32)
    (hrun : write_memory addr buffer st = (evs, some rest)) :
    (∀ c ∈ programChunks evs, c.2 ≤ 256) ∧
    (∀ c ∈ programChunks evs, c.1 % 256 + c.2 ≤ 256) ∧
    ((programChunks evs).map (fun c => c.2)).sum = buffer.length ∧
    contiguousFrom addr (programChunks evs) ∧
    (programChunks evs).Pairwise (fun c d => c.1 < d.1) := by
  rw [write_memory] at hrun
  have hevs : (write_memory_loop addr buffer st).1 = evs := congrArg Prod.fst hrun
  have hb := write_memory_loop_chunk_bounds buffer.length addr buffer st rfl
  rw [hevs] at hb
  obtain ⟨hcont, hsum⟩ :=
    write_memory_loop_chunks_spec buffer.length addr buffer st evs rest rfl haddr hrun
  refine ⟨fun c hc => (hb c hc).2.1, fun c hc => (hb c hc).2.2, hsum, hcont, ?_⟩
  exact contiguousFrom_pairwise _ addr hcont (fun c hc => (hb c hc).1)

/-- The concrete trace produced by write_memory 254 [1, 2, 3] [0, 0]. -/
def write_memory_demo_trace : List BusEvent :=
  [enable_write, BusEvent.writeData (write_page_trans 254) [1, 2], read_sr,
   enable_write, BusEvent.writeData (write_page_trans 256) [3], read_sr]

/-- Evaluation of write_memory on the demonstration input: a three-byte
write at address 254 splits at the page boundary 256. -/
theorem write_memory_demo_eval :
    write_memory 254 [1, 2, 3] [0, 0] = (write_memory_demo_trace, some []) := by
  simp [write_memory, write_memory_loop, write_page, wait_write_finish, pollStatus,
    land255_eq_mod, MEMORY_PAGE_SIZE, write_memory_demo_trace]

/-- Witness for C1 at the demonstration input. -/
theorem write_memory_page_split_witness :
    (254 + ([1, 2, 3] : List Nat).length ≤ 2 ^ 32 ∧
      write_memory 254 [1, 2, 3] [0, 0] = (write_memory_demo_trace, some [])) ∧
    ((∀ c ∈ programChunks write_memory_demo_trace, c.2 ≤ 256) ∧
     (∀ c ∈ programChunks write_memory_demo_trace, c.1 % 256 + c.2 ≤ 256) ∧
     ((programChunks write_memory_demo_trace).map (fun c => c.2)).sum =
       ([1, 2, 3] : List Nat).length ∧
     contiguousFrom 254 (programChunks write_memory_demo_trace) ∧
     (programChunks write_memory_demo_trace).Pairwise (fun c d => c.1 < d.1)) :=
  ⟨⟨by norm_num, write_memory_demo_eval⟩,
   write_memory_page_split 254 [1, 2, 3] [0, 0] write_memory_demo_trace []
     (by norm_num) write_memory_demo_eval⟩

/-- Claim C3 (evaluation): read_register and the register reads built on it
request exactly one data byte in Octal DTR mode, not the even length of at
least two bytes the protocol requires; read_cr2 alone requests two. -/
theorem octal_register_reads_one_byte :
    (∀ cmd dummy_addr dummy_cycles : Nat,
      read_register cmd dummy_addr dummy_cycles =
        BusEvent.readData (read_register_trans cmd dummy_addr dummy_cycles) 1 ∧
      (read_register_trans cmd dummy_addr dummy_cycles).ddtr = true ∧
      eventDataLen (read_register cmd dummy_addr dummy_cycles) = some 1) ∧
    eventDataLen read_sr = some 1 ∧
    eventDataLen read_cr = some 1 ∧
    (∀ address : Nat, eventDataLen (read_cr2 address) = some 2) ∧
    ¬ evenAtLeastTwo 1 := by
  refine ⟨fun _ _ _ => ⟨rfl, rfl, rfl⟩, rfl, rfl, fun _ => rfl, ?_⟩
  intro h
  exact absurd h.1 (by norm_num)

/-- Claim C4: erase_sector issues opcode 0x21DE with its address,
erase_block_64k issues 0xDC23 with its address, erase_chip issues 0x609F
with no address phase, and each trace contains exactly one erase
transaction. -/
theorem erase_opcode_selection :
    (∀ (addr : Nat) (st : List Nat),
      (erase_sector addr st).1 =
        enable_write :: BusEvent.command (perform_erase_trans addr 0x21DE) ::
          (wait_write_finish st).1 ∧
      (perform_erase_trans addr 0x21DE).instruction = some 0x21DE ∧
      (perform_erase_trans addr 0x21DE).address = some addr ∧
      (erase_sector addr st).1.countP isEraseEvent = 1) ∧
    (∀ (addr : Nat) (st : List Nat),
      (erase_block_64k addr st).1 =
        enable_write :: BusEvent.command (perform_erase_trans addr 0xDC23) ::
          (wait_write_finish st).1 ∧
      (perform_erase_trans addr 0xDC23).instruction = some 0xDC23 ∧
      (perform_erase_trans addr 0xDC23).address = some addr ∧
      (erase_block_64k addr st).1.countP isEraseEvent = 1) ∧
    (∀ st : List Nat,
      (erase_chip st).1 =
        enable_write :: exec_command 0x609F :: (wait_write_finish st).1 ∧
      (exec_command_trans 0x609F).instruction = some 0x609F ∧
      (exec_command_trans 0x609F).address = none ∧
      (erase_chip st).1.countP isEraseEvent = 1) := by
  have hpoll : ∀ st : List Nat, (wait_write_finish st).1.countP isEraseEvent = 0 := by
    intro st
    rw [List.countP_eq_zero]
    intro e he
    rw [pollStatus_mem read_sr st e he]
    decide
  have hwe : isEraseEvent enable_write = false := by decide
  refine ⟨fun addr st => ⟨rfl, rfl, rfl, ?_⟩, fun addr st => ⟨rfl, rfl, rfl, ?_⟩,
    fun st => ⟨rfl, rfl, rfl, ?_⟩⟩
  · show (enable_write :: BusEvent.command (perform_erase_trans addr 0x21DE) ::
      (wait_write_finish st).1).countP isEraseEvent = 1
    simp [List.countP_cons, hpoll, hwe, isEraseEvent, perform_erase_trans, OpiCommand.code]
    decide
  · show (enable_write :: BusEvent.command (perform_erase_trans addr 0xDC23) ::
      (wait_write_finish st).1).countP isEraseEvent = 1
    simp [List.countP_cons, hpoll, hwe, isEraseEvent, perform_erase_trans, OpiCommand.code]
    decide
  · show (enable_write :: exec_command 0x609F ::
      (wait_write_finish st).1).countP isEraseEvent = 1
    simp [List.countP_cons, hpoll, hwe, isEraseEvent, exec_command, exec_command_trans,
      OpiCommand.code]
    decide

/-- Counterexample to the byte count of C6: read_id requests a four-byte
data phase, not a three-byte one. -/
theorem read_id_not_three_bytes :
    eventDataLen read_id = some 4 ∧ eventDataLen read_id ≠ some 3 := by
  constructor
  · rfl
  · intro h
    simp [read_id, eventDataLen] at h

/-- Claim C6 (amended): read_id issues 0x9F60 with double-rate instruction
and address phases, dummy address 0 and 4 dummy cycles, and its data phase
is single-rate reading a four-byte buffer (carrying the three-byte device
identification); every other Octal transaction with a data phase in the
driver is double-rate. -/
theorem read_id_single_rate_shape :
    read_id = BusEvent.readData read_id_trans 4 ∧
    read_id_trans.instruction = some 0x9F60 ∧
    read_id_trans.iwidth = XspiWidth.OCTO ∧
    read_id_trans.idtr = true ∧
    read_id_trans.adwidth = XspiWidth.OCTO ∧
    read_id_trans.addtr = true ∧
    read_id_trans.address = some 0 ∧
    read_id_trans.dummy = 4 ∧
    read_id_trans.dwidth = XspiWidth.OCTO ∧
    read_id_trans.ddtr = false ∧
    (∀ addr : Nat, (read_memory_trans addr).ddtr = true) ∧
    (∀ addr : Nat, (write_page_trans addr).ddtr = true) ∧
    (∀ cmd dummy_addr dummy_cycles : Nat,
      (read_register_trans cmd dummy_addr dummy_cycles).ddtr = true) ∧
    write_sr_cr_trans.ddtr = true ∧
    (∀ address : Nat, (read_cr2_trans address).ddtr = true) ∧
    (∀ address : Nat, (write_cr2_trans address).ddtr = true) ∧
    enable_mm_read_config.ddtr = true ∧
    enable_mm_write_config.ddtr = true :=
  ⟨rfl, rfl, rfl, rfl, rfl, rfl, rfl, rfl, rfl, rfl, fun _ => rfl, fun _ => rfl,
   fun _ _ _ => rfl, rfl, fun _ => rfl, fun _ => rfl, rfl, rfl⟩

/-- Claim C7: a write_page call crossing a page boundary aborts with no bus
activity at all, and under the in-page precondition the rejection branch is
unreachable (the normal Write-Enable, Page-Program, poll path runs). -/
theorem write_page_boundary_reject (addr : Nat) (buffer : List Nat) (len : Nat)
    (st : List Nat) (hlen : len + 255 < 2 ^ 32) :
    (256 < len + addr % 256 → write_page addr buffer len st = ([], none)) ∧
    (len + addr % 256 ≤ 256 →
      write_page addr buffer len st =
        (enable_write :: BusEvent.writeData (write_page_trans addr) buffer ::
          (wait_write_finish st).1,
         (wait_write_finish st).2)) := by
  constructor
  · intro hgt
    unfold write_page
    rw [show (0x000000ff : Nat) = 255 from rfl, land255_eq_mod]
    rw [if_neg]
    have hm : addr % 256 < 256 := Nat.mod_lt _ (by norm_num)
    have hfit : len + addr % 256 < 2 ^ 32 := by omega
    rw [Nat.mod_eq_of_lt hfit]
    simp only [MEMORY_PAGE_SIZE]
    omega
  · exact write_page_in_bounds addr buffer len st

/-- Witness for C7: a 300-byte request at address 10 is rejected. -/
theorem write_page_boundary_reject_witness :
    (300 + 255 < 2 ^ 32) ∧
    ((256 < 300 + 10 % 256 → write_page 10 [] 300 [] = ([], none)) ∧
     (300 + 10 % 256 ≤ 256 →
       write_page 10 [] 300 [] =
         (enable_write :: BusEvent.writeData (write_page_trans 10) [] ::
           (wait_write_finish []).1,
          (wait_write_finish []).2))) :=
  ⟨by norm_num, write_page_boundary_reject 10 [] 300 [] (by norm_num)⟩

/-- Claim C8: completion polling returns exactly when a status read yields
bit 0 clear (consuming a run of busy statuses followed by one clear one),
and has no iteration bound: an all-busy environment of any length is
consumed entirely with the loop still running. -/
theorem completion_polling_unbounded :
    (∀ (st : List Nat) (evs : List BusEvent) (rest : List Nat),
      wait_write_finish st = (evs, some rest) ↔
        ∃ busy s, st = busy ++ s :: rest ∧ (∀ b ∈ busy, b &&& 1 ≠ 0) ∧ s &&& 1 = 0 ∧
          evs = List.replicate (busy.length + 1) read_sr) ∧
    (∀ st : List Nat, (∀ s ∈ st, s &&& 1 ≠ 0) →
      wait_write_finish st = (List.replicate st.length read_sr, none)) ∧
    (∀ (st : List Nat) (evs : List BusEvent) (rest : List Nat),
      wait_write_finish_spi st = (evs, some rest) ↔
        ∃ busy s, st = busy ++ s :: rest ∧ (∀ b ∈ busy, b &&& 1 ≠ 0) ∧ s &&& 1 = 0 ∧
          evs = List.replicate (busy.length + 1)
            (read_register_spi SpiCommand.ReadStatusRegister.code)) ∧
    (∀ st : List Nat, (∀ s ∈ st, s &&& 1 ≠ 0) →
      wait_write_finish_spi st =
        (List.replicate st.length (read_register_spi SpiCommand.ReadStatusRegister.code),
         none)) :=
  ⟨fun st evs rest => pollStatus_some_iff read_sr st evs rest,
   fun st h => pollStatus_all_busy read_sr st h,
   fun st evs rest =>
     pollStatus_some_iff (read_register_spi SpiCommand.ReadStatusRegister.code) st evs rest,
   fun st h => pollStatus_all_busy (read_register_spi SpiCommand.ReadStatusRegister.code) st h⟩

/-- Witness for C8: three busy statuses are all consumed without
completion. -/
theorem completion_polling_unbounded_witness :
    (∀ s ∈ ([1, 1, 1] : List Nat), s &&& 1 ≠ 0) ∧
    wait_write_finish [1, 1, 1] = (List.replicate 3 read_sr, none) :=
  ⟨by decide, completion_polling_unbounded.2.1 [1, 1, 1] (by decide)⟩

/-- Claim C9: write_cr2 widens the one-byte value to a two-byte word; the
transmitted data phase is exactly two bytes whose first byte is the value. -/
theorem write_cr2_widens (address : Nat) (value : Nat) (st : List Nat)
    (hv : value < 256) :
    (write_cr2 address value st).1 =
      enable_write :: BusEvent.writeData (write_cr2_trans address) [value, 0] ::
        (wait_write_finish st).1 ∧
    ([value, 0] : List Nat).length = 2 ∧
    ([value, 0] : List Nat).head? = some value := by
  refine ⟨?_, rfl, rfl⟩
  unfold write_cr2
  dsimp only
  simp [u16leBytes]
  omega

/-- Witness for C9 at value 171. -/
theorem write_cr2_widens_witness :
    (171 < 256) ∧
    ((write_cr2 5 171 [0]).1 =
      enable_write :: BusEvent.writeData (write_cr2_trans 5) [171, 0] ::
        (wait_write_finish [0]).1 ∧
     ([171, 0] : List Nat).length = 2 ∧
     ([171, 0] : List Nat).head? = some 171) :=
  ⟨by norm_num, write_cr2_widens 5 171 [0] (by norm_num)⟩

/-- Claim C10: an empty buffer produces no bus activity at all, and every
Page-Program chunk write_memory issues carries at least one byte. -/
theorem write_memory_no_empty_transactions :
    (∀ (addr : Nat) (st : List Nat), write_memory addr [] st = ([], some st)) ∧
    (∀ (addr : Nat) (buffer : List Nat) (st : List Nat),
      ∀ c ∈ programChunks (write_memory addr buffer st).1, 1 ≤ c.2) := by
  constructor
  · intro addr st
    rw [write_memory, write_memory_loop, dif_pos (show ([] : List Nat).length = 0 from rfl)]
  · intro addr buffer st c hc
    exact (write_memory_loop_chunk_bounds buffer.length addr buffer st rfl c hc).1

/-- Witness for C10: empty write at address 7, and the first chunk of the
demonstration run is nonempty. -/
theorem write_memory_no_empty_transactions_witness :
    write_memory 7 [] [3] = ([], some [3]) ∧ 1 ≤ ((254 : Nat), (2 : Nat)).2 :=
  ⟨write_memory_no_empty_transactions.1 7 [3],
   write_memory_no_empty_transactions.2 254 [1, 2, 3] [0, 0] (254, 2)
     (by rw [write_memory_demo_eval]; decide)⟩

/-- Claim C2: the constructor performs, in order: Reset-Enable (0x66),
Reset-Memory (0x99), legacy status polling until bit 0 clears, a legacy
read of CR2 at 0, legacy Write-Enable (0x06), a legacy write of CR2 at 0
with bit 1 of the read value set and all other bits preserved (followed by
the legacy write completion poll), then an Octal-DTR re-read of CR2 at 0
whose returned value does not influence the result (a mismatch is not
fatal). -/
theorem new_init_sequence :
    (∀ (st : List Nat) (cr2_0 dtr : Nat) (evs : List BusEvent) (rest : List Nat),
      new st cr2_0 dtr = (evs, some rest) →
      ∃ busy1 s1 busy2 s2,
        st = busy1 ++ s1 :: (busy2 ++ s2 :: rest) ∧
        (∀ b ∈ busy1, b &&& 1 ≠ 0) ∧ s1 &&& 1 = 0 ∧
        (∀ b ∈ busy2, b &&& 1 ≠ 0) ∧ s2 &&& 1 = 0 ∧
        evs =
          exec_command_spi SpiCommand.ResetEnable.code ::
            exec_command_spi SpiCommand.ResetMemory.code ::
            (List.replicate (busy1.length + 1)
                (read_register_spi SpiCommand.ReadStatusRegister.code) ++
              read_cr2_spi 0 ::
                exec_command_spi SpiCommand.WriteEnable.code ::
                BusEvent.writeData (write_cr2_spi_trans 0) [cr2_0 ||| 2] ::
                (List.replicate (busy2.length + 1)
                    (read_register_spi SpiCommand.ReadStatusRegister.code) ++
                  [read_cr2 0]))) ∧
    (∀ v : Nat, (v ||| 2).testBit 1 = true) ∧
    (∀ v i : Nat, i ≠ 1 → (v ||| 2).testBit i = v.testBit i) ∧
    (∀ (st : List Nat) (v d1 d2 : Nat), new st v d1 = new st v d2) := by
  refine ⟨?_, ?_, ?_, fun st v d1 d2 => rfl⟩
  · intro st cr2_0 dtr evs rest h
    unfold new reset_memory_spi write_cr2_spi at h
    dsimp only at h
    cases hw1 : (wait_write_finish_spi st).2 with
    | none =>
      rw [hw1] at h
      dsimp only at h
      have h2 := congrArg Prod.snd h
      simp at h2
    | some st1 =>
      rw [hw1] at h
      dsimp only at h
      cases hw2 : (wait_write_finish_spi st1).2 with
      | none =>
        rw [hw2] at h
        dsimp only at h
        have h2 := congrArg Prod.snd h
        simp at h2
      | some st2 =>
        rw [hw2] at h
        dsimp only at h
        have h1 := congrArg Prod.fst h
        have h2 := congrArg Prod.snd h
        dsimp only at h1 h2
        have hrest : st2 = rest := by injection h2
        subst hrest
        obtain ⟨busy1, s1, hsp1, hb1, hc1, he1⟩ :=
          (pollStatus_some_iff (read_register_spi SpiCommand.ReadStatusRegister.code)
            st ((wait_write_finish_spi st).1) st1).mp (Prod.ext rfl hw1)
        obtain ⟨busy2, s2, hsp2, hb2, hc2, he2⟩ :=
          (pollStatus_some_iff (read_register_spi SpiCommand.ReadStatusRegister.code)
            st1 ((wait_write_finish_spi st1).1) st2).mp (Prod.ext rfl hw2)
        refine ⟨busy1, s1, busy2, s2, ?_, hb1, hc1, hb2, hc2, ?_⟩
        · rw [hsp1, hsp2]
        · rw [← h1, he1, he2]
          simp [List.cons_append, List.append_assoc]
  · intro v
    rw [Nat.testBit_lor]
    have h2 : Nat.testBit 2 1 = true := rfl
    rw [h2, Bool.or_true]
  · intro v i hi
    rw [Nat.testBit_lor]
    have h2 : Nat.testBit 2 i = false := by
      have h3 := Nat.testBit_two_pow_of_ne (show 1 ≠ i from fun h => hi h.symm)
      simpa using h3
    rw [h2, Bool.or_false]

/-- The concrete trace produced by new [0, 0] 64 66. -/
def new_demo_trace : List BusEvent :=
  [exec_command_spi 0x66, exec_command_spi 0x99, read_register_spi 0x05,
   read_cr2_spi 0, exec_command_spi 0x06,
   BusEvent.writeData (write_cr2_spi_trans 0) [64 ||| 2], read_register_spi 0x05,
   read_cr2 0]

/-- Evaluation of the constructor on the demonstration environment. -/
theorem new_demo_eval : new [0, 0] 64 66 = (new_demo_trace, some []) := by
  simp [new, reset_memory_spi, write_cr2_spi, wait_write_finish_spi, pollStatus,
    new_demo_trace, SpiCommand.code]

/-- Witness for C2 on the demonstration environment. -/
theorem new_init_sequence_witness :
    new [0, 0] 64 66 = (new_demo_trace, some []) ∧
    ∃ busy1 s1 busy2 s2,
      ([0, 0] : List Nat) = busy1 ++ s1 :: (busy2 ++ s2 :: []) ∧
      (∀ b ∈ busy1, b &&& 1 ≠ 0) ∧ s1 &&& 1 = 0 ∧
      (∀ b ∈ busy2, b &&& 1 ≠ 0) ∧ s2 &&& 1 = 0 ∧
      new_demo_trace =
        exec_command_spi SpiCommand.ResetEnable.code ::
          exec_command_spi SpiCommand.ResetMemory.code ::
          (List.replicate (busy1.length + 1)
              (read_register_spi SpiCommand.ReadStatusRegister.code) ++
            read_cr2_spi 0 ::
              exec_command_spi SpiCommand.WriteEnable.code ::
              BusEvent.writeData (write_cr2_spi_trans 0) [64 ||| 2] ::
              (List.replicate (busy2.length + 1)
                  (read_register_spi SpiCommand.ReadStatusRegister.code) ++
                [read_cr2 0])) :=
  ⟨new_demo_eval, new_init_sequence.1 [0, 0] 64 66 new_demo_trace [] new_demo_eval⟩

/-- Claim C5: every Page-Program, every erase and every Octal CR2 write is
immediately preceded by the Octal Write-Enable command (opcode 0x06F9) and
followed, before the operation returns, by status polling that ends with
bit 0 observed clear. -/
theorem write_ops_bracketed :
    (∀ (addr : Nat) (buffer : List Nat) (len : Nat) (st : List Nat)
        (evs : List BusEvent) (rest : List Nat),
      write_page addr buffer len st = (evs, some rest) →
      ∃ busy s, st = busy ++ s :: rest ∧ (∀ b ∈ busy, b &&& 1 ≠ 0) ∧ s &&& 1 = 0 ∧
        evs = enable_write :: BusEvent.writeData (write_page_trans addr) buffer ::
          List.replicate (busy.length + 1) read_sr) ∧
    (∀ (addr cmd : Nat) (st : List Nat) (evs : List BusEvent) (rest : List Nat),
      perform_erase addr cmd st = (evs, some rest) →
      ∃ busy s, st = busy ++ s :: rest ∧ (∀ b ∈ busy, b &&& 1 ≠ 0) ∧ s &&& 1 = 0 ∧
        evs = enable_write :: BusEvent.command (perform_erase_trans addr cmd) ::
          List.replicate (busy.length + 1) read_sr) ∧
    (∀ (st : List Nat) (evs : List BusEvent) (rest : List Nat),
      erase_chip st = (evs, some rest) →
      ∃ busy s, st = busy ++ s :: rest ∧ (∀ b ∈ busy, b &&& 1 ≠ 0) ∧ s &&& 1 = 0 ∧
        evs = enable_write :: exec_command OpiCommand.ChipErase.code ::
          List.replicate (busy.length + 1) read_sr) ∧
    (∀ (address value : Nat) (st : List Nat) (evs : List BusEvent) (rest : List Nat),
      write_cr2 address value st = (evs, some rest) →
      ∃ busy s, st = busy ++ s :: rest ∧ (∀ b ∈ busy, b &&& 1 ≠ 0) ∧ s &&& 1 = 0 ∧
        evs = enable_write ::
          BusEvent.writeData (write_cr2_trans address) (u16leBytes (value % 2 ^ 16)) ::
          List.replicate (busy.length + 1) read_sr) ∧
    enable_write = BusEvent.command (exec_command_trans 0x06F9) := by
  refine ⟨?_, ?_, ?_, ?_, rfl⟩
  · intro addr buffer len st evs rest h
    unfold write_page at h
    by_cases hg : (len + (addr &&& 0x000000ff)) % 2 ^ 32 ≤ MEMORY_PAGE_SIZE
    · rw [if_pos hg] at h
      exact bracket_poll_helper _ _ st evs rest h
    · rw [if_neg hg] at h
      have h2 := congrArg Prod.snd h
      simp at h2
  · intro addr cmd st evs rest h
    unfold perform_erase at h
    exact bracket_poll_helper _ _ st evs rest h
  · intro st evs rest h
    unfold erase_chip at h
    exact bracket_poll_helper _ _ st evs rest h
  · intro address value st evs rest h
    unfold write_cr2 at h
    dsimp only at h
    exact bracket_poll_helper _ _ st evs rest h

/-- Evaluation of a one-byte write_page on a trivial environment. -/
theorem write_page_demo_eval :
    write_page 0 [9] 1 [0] =
      ([enable_write, BusEvent.writeData (write_page_trans 0) [9], read_sr], some []) := by
  simp [write_page, wait_write_finish, pollStatus, land255_eq_mod, MEMORY_PAGE_SIZE]

/-- Witness for C5 on the write_page evaluation. -/
theorem write_ops_bracketed_witness :
    write_page 0 [9] 1 [0] =
      ([enable_write, BusEvent.writeData (write_page_trans 0) [9], read_sr], some []) ∧
    ∃ busy s, ([0] : List Nat) = busy ++ s :: [] ∧ (∀ b ∈ busy, b &&& 1 ≠ 0) ∧ s &&& 1 = 0 ∧
      ([enable_write, BusEvent.writeData (write_page_trans 0) [9], read_sr] :
          List BusEvent) =
        enable_write :: BusEvent.writeData (write_page_trans 0) [9] ::
          List.replicate (busy.length + 1) read_sr :=
  ⟨write_page_demo_eval,
   write_ops_bracketed.1 0 [9] 1 [0] _ [] write_page_demo_eval⟩

end Mx25
